import Mathlib

/-!
Verification of the work-hours calculator (`src/app.py`).

The program's core functions are embedded shallowly:

* `format_timedelta`  — `format_timedelta` in the source.  The Python
  `timedelta` argument is represented by its total number of seconds
  (`Int`); the possibly-`None` argument becomes `Option Int`.  Python's
  `//` and `%` on integers are floor division and floor modulus, so the
  embedding uses `Int.fdiv` / `Int.fmod`.
* `parseHM`           — the behaviour of `datetime.strptime(s, "%H:%M")`
  restricted to the hour/minute pair it yields.  CPython compiles the
  format to the anchored regex `(2[0-3]|[0-1]\d|\d):([0-5]\d|\d)` and
  raises if the match fails or if unconverted data remains, so e.g.
  `"9:5"` parses as 9:05 while `"24:00"` and `"20:99"` fail.  Digits are
  modelled as the ASCII digits `'0'..'9'`.
* `calculate_time_difference` — `calculate_time_difference` in the source.
  Every duration the Python code builds is a whole number of minutes, so
  the embedding returns the duration as a count of minutes (`Nat`).
* `format_time_input` — `format_time_input` in the source.
* `error_in_row`, `daily_duration`, `end_now_offered`, `row_display`,
  `total_duration`, `clear_day` — the per-day validation / aggregation
  pass of the script body, with the Streamlit session state for the seven
  day records represented by a `List DayRecord` and the current wall
  clock passed in as an already-formatted `HH:MM` string (`strftime_HM`).
-/

/-- Numeric value of an ASCII digit character (`'0'` ↦ 0, …, `'9'` ↦ 9). -/
def charVal (c : Char) : ℕ :=
  c.toNat - 48

/-- Minute part of `strptime "%H:%M"`: after the colon the regex
`([0-5]\d|\d)` must match and exhaust the remaining characters; a
leftover character raises `ValueError` ("unconverted data remains"). -/
def parseMinute (h : ℕ) (cs : List Char) : Option (ℕ × ℕ) :=
  match cs with
  | [m0] => if m0.isDigit then some (h, charVal m0) else none
  | [m0, m1] =>
      if ('0' ≤ m0 ∧ m0 ≤ '5') ∧ m1.isDigit then
        some (h, charVal m0 * 10 + charVal m1)
      else none
  | _ => none

/-- Embedding of `datetime.strptime(s, "%H:%M")`, returning the parsed
(hour, minute) pair or `none` where Python raises `ValueError`.  The hour
regex `(2[0-3]|[0-1]\d|\d)` consumes two characters exactly when both are
digits and their value is at most 23; otherwise it can only consume a
single digit, which must be followed directly by the colon. -/
def parseHM (s : String) : Option (ℕ × ℕ) :=
  match s.data with
  | c0 :: c1 :: rest =>
      if c0.isDigit ∧ c1.isDigit then
        if charVal c0 * 10 + charVal c1 ≤ 23 then
          match rest with
          | ':' :: ms => parseMinute (charVal c0 * 10 + charVal c1) ms
          | _ => none
        else none
      else if c0.isDigit ∧ c1 = ':' then
        parseMinute (charVal c0) rest
      else none
  | _ => none

/-- `format_timedelta` from the source: `None` renders as `"0h 0m"`,
otherwise hours are `total_seconds // 3600` and minutes
`(total_seconds % 3600) // 60` (Python floor division/modulus). -/
def format_timedelta : Option ℤ → String
  | none => "0h 0m"
  | some total_seconds =>
      toString (total_seconds.fdiv 3600) ++ "h " ++
        toString ((total_seconds.fmod 3600).fdiv 60) ++ "m"

/-- `calculate_time_difference` from the source, with the result measured
in minutes.  The in-time is parsed strictly (so `"24:00"` fails and the
`except` branch returns a zero duration); an out-time of exactly
`"24:00"` is taken as midnight of the next day (1440 minutes); an
out-instant earlier than the in-instant is advanced by one day. -/
def calculate_time_difference (in_time_str out_time_str : String) : ℕ :=
  match parseHM in_time_str with
  | none => 0
  | some (ih, im) =>
      let startMin := ih * 60 + im
      if out_time_str = "24:00" then
        1440 - startMin
      else
        match parseHM out_time_str with
        | none => 0
        | some (oh, om) =>
            let endMin := oh * 60 + om
            if endMin < startMin then endMin + 1440 - startMin
            else endMin - startMin

/-- `format_time_input` from the source: keep at most the first four
digits; three digits are split as `0D:DD` when the leading two-digit
value exceeds 23 (Python `int(digits[:2]) > 23`) and as `DD:D`
otherwise; four digits always split as `DD:DD`; fewer digits are
returned as they are. -/
def format_time_input (time_str : String) : String :=
  if time_str = "" then ""
  else
    match (time_str.data.filter Char.isDigit).take 4 with
    | [d0, d1, d2] =>
        if 23 < charVal d0 * 10 + charVal d1 then
          String.mk ['0', d0, ':', d1, d2]
        else
          String.mk [d0, d1, ':', d2]
    | d0 :: d1 :: d2 :: d3 :: _ =>
        String.mk [d0, d1, ':', d2, d3]
    | ds => String.mk ds

/-- Reference rendering transcribed from the specification's wording for
the Duration Formatter: hours are the floor of total seconds over 3600,
minutes the remaining whole minutes. -/
def format_reference (n : ℕ) : String :=
  toString (n / 3600) ++ "h " ++ toString (n % 3600 / 60) ++ "m"

/-- Reference algorithm transcribed from the specification's wording for
the Time Parser/Normalizer (claim C3): strip non-digits, truncate to four
digits; zero digits give the empty string; one or two digits pass
through; three digits split depending on whether the leading two-digit
value exceeds 23; four digits always split as `HH:MM`. -/
def normalize_reference (raw : String) : String :=
  match (raw.data.filter Char.isDigit).take 4 with
  | [] => ""
  | [d0] => String.mk [d0]
  | [d0, d1] => String.mk [d0, d1]
  | [d0, d1, d2] =>
      if 23 < charVal d0 * 10 + charVal d1 then
        String.mk ['0', d0, ':', d1, d2]
      else
        String.mk [d0, d1, ':', d2]
  | d0 :: d1 :: d2 :: d3 :: _ =>
      String.mk [d0, d1, ':', d2, d3]

/-- The decimal digit character for `n ≤ 9` (used to model `strftime`'s
zero-padded rendering of hour and minute values). -/
def digitChar : ℕ → Char
  | 0 => '0' | 1 => '1' | 2 => '2' | 3 => '3' | 4 => '4'
  | 5 => '5' | 6 => '6' | 7 => '7' | 8 => '8' | _ => '9'

/-- Embedding of `now.strftime("%H:%M")` for a wall-clock reading of
`h` hours and `m` minutes: both components zero-padded to two digits. -/
def strftime_HM (h m : ℕ) : String :=
  String.mk [digitChar (h / 10), digitChar (h % 10), ':',
             digitChar (m / 10), digitChar (m % 10)]

/-- One weekday's pair of text fields (`st.session_state[f"in_{day}"]`
and `st.session_state[f"out_{day}"]`). -/
structure DayRecord where
  inText : String
  outText : String
deriving DecidableEq

/-- The validation pass of the script body: `error_in_row` is set when
the in-time is nonempty, fully typed (5 characters) and either is the
literal `"24:00"` (explicitly raised) or fails `strptime`; otherwise
when the out-time is nonempty, fully typed, not the `"24:00"` sentinel
and fails `strptime`. -/
def error_in_row (in_time out_time : String) : Bool :=
  let error1 : Bool :=
    if in_time ≠ "" ∧ in_time.length = 5 then
      decide (in_time = "24:00") || (parseHM in_time).isNone
    else false
  if error1 then true
  else if out_time ≠ "" ∧ out_time.length = 5 then
    if out_time ≠ "24:00" then (parseHM out_time).isNone else false
  else false

/-- The condition under which the script renders the "End Now" button:
`not error_in_row and in_time and not out_time`. -/
def end_now_offered (in_time out_time : String) : Bool :=
  !error_in_row in_time out_time && decide (in_time ≠ "") &&
    decide (out_time = "")

/-- The duration computation of the script body, returning the day's
duration in minutes together with the `duration_suffix` string.
Case 1: both fields fully typed and no error — difference of the two
fields.  Case 2: in-time fully typed, out-time empty and no error —
difference against the current wall-clock text, suffixed " (so far)".
Otherwise zero with no suffix. -/
def daily_duration (in_time out_time now_str : String) : ℕ × String :=
  if error_in_row in_time out_time = false ∧ in_time.length = 5 ∧
      out_time.length = 5 then
    (calculate_time_difference in_time out_time, "")
  else if error_in_row in_time out_time = false ∧ in_time.length = 5 ∧
      out_time = "" then
    (calculate_time_difference in_time now_str, " (so far)")
  else (0, "")

/-- What column 5 of a row shows: the error indicator
(`st.error("Not a real time")`) when `error_in_row` is set, else the
formatted daily duration followed by the suffix. -/
inductive RowDisplay where
  | errorIndicator : RowDisplay
  | text : String → RowDisplay
deriving DecidableEq

/-- The rendering choice of column 5 for one row. -/
def row_display (in_time out_time now_str : String) : RowDisplay :=
  if error_in_row in_time out_time then RowDisplay.errorIndicator
  else
    RowDisplay.text
      (format_timedelta (some ((daily_duration in_time out_time now_str).1 * 60)) ++
        (daily_duration in_time out_time now_str).2)

/-- The number of minutes a day record adds to `total_duration`. -/
def dayContribution (now_str : String) (r : DayRecord) : ℕ :=
  (daily_duration r.inText r.outText now_str).1

/-- The running total of the script's day loop
(`total_duration += daily_duration`), started from `timedelta(0)`. -/
def total_duration (now_str : String) (week : List DayRecord) : ℕ :=
  week.foldl (fun acc r => acc + dayContribution now_str r) 0

/-- `clear_day_callback`: both fields of the chosen day become empty;
the other records are untouched. -/
def clear_day (week : List DayRecord) (i : ℕ) : List DayRecord :=
  week.set i ⟨"", ""⟩

/-! ### Basic facts about the strptime embedding -/

theorem charVal_le_nine {c : Char} (h : c.isDigit = true) : charVal c ≤ 9 := by
  simp only [Char.isDigit, ge_iff_le, Bool.and_eq_true, decide_eq_true_eq] at h
  have h2 : c.val.toNat ≤ 57 := UInt32.toNat_le_of_le (by norm_num [UInt32.size]) h.2
  unfold charVal Char.toNat
  omega

theorem charVal_le_five {c : Char} (h : c ≤ '5') : charVal c ≤ 5 := by
  have h2 : c.val.toNat ≤ 53 := UInt32.toNat_le_of_le (by norm_num [UInt32.size]) h
  unfold charVal Char.toNat
  omega

/-- A successful minute parse keeps the hour and yields a minute ≤ 59. -/
theorem parseMinute_some {h : ℕ} {cs : List Char} {p : ℕ × ℕ}
    (hp : parseMinute h cs = some p) : p.1 = h ∧ p.2 ≤ 59 := by
  rcases cs with _ | ⟨m0, _ | ⟨m1, _ | ⟨m2, rest⟩⟩⟩
  · simp [parseMinute] at hp
  · simp only [parseMinute] at hp
    split at hp
    · rename_i hd
      obtain rfl : (h, charVal m0) = p := Option.some_injective _ hp
      exact ⟨rfl, le_trans (charVal_le_nine hd) (by norm_num)⟩
    · exact absurd hp (by simp)
  · simp only [parseMinute] at hp
    split at hp
    · rename_i hd
      obtain rfl : (h, charVal m0 * 10 + charVal m1) = p :=
        Option.some_injective _ hp
      refine ⟨rfl, ?_⟩
      have h1 := charVal_le_five hd.1.2
      have h2 := charVal_le_nine hd.2
      simp only
      omega
    · exact absurd hp (by simp)
  · simp [parseMinute] at hp

/-- Anything `strptime "%H:%M"` accepts is a real clock reading:
hour ≤ 23 and minute ≤ 59. -/
theorem parseHM_bounds {s : String} {p : ℕ × ℕ} (hp : parseHM s = some p) :
    p.1 ≤ 23 ∧ p.2 ≤ 59 := by
  rcases hs : s.data with _ | ⟨c0, _ | ⟨c1, rest⟩⟩ <;>
    simp only [parseHM, hs] at hp
  · exact absurd hp (by simp)
  · exact absurd hp (by simp)
  · split at hp
    · rename_i hd
      split at hp
      · rename_i hv
        split at hp
        · have := parseMinute_some hp
          omega
        · exact absurd hp (by simp)
      · exact absurd hp (by simp)
    · split at hp
      · rename_i hnd hd
        have := parseMinute_some hp
        have h9 := charVal_le_nine hd.1
        omega
      · exact absurd hp (by simp)

/-- The end-of-day sentinel is rejected by strict parsing (in Python,
`strptime("24:00", "%H:%M")` raises `ValueError`). -/
theorem parseHM_2400 : parseHM "24:00" = none := by decide

/-- A string that parses successfully is not the sentinel. -/
theorem parseHM_ne_2400 {s : String} {p : ℕ × ℕ} (hp : parseHM s = some p) :
    s ≠ "24:00" := by
  intro he
  rw [he, parseHM_2400] at hp
  exact absurd hp (by simp)

set_option maxHeartbeats 1000000 in
/-- Formatting a real wall-clock reading with `strftime("%H:%M")` and
parsing it back with `strptime("%H:%M")` recovers the reading. -/
theorem parseHM_strftime : ∀ h < 24, ∀ m < 60,
    parseHM (strftime_HM h m) = some (h, m) := by decide

/-- Characterisation of `calculate_time_difference` when both inputs
parse: the direct clock difference, wrapped by one day when the
out-instant precedes the in-instant. -/
theorem calculate_time_difference_eq {sIn sOut : String} {ih im oh om : ℕ}
    (hin : parseHM sIn = some (ih, im)) (hout : parseHM sOut = some (oh, om)) :
    calculate_time_difference sIn sOut =
      if oh * 60 + om < ih * 60 + im then
        oh * 60 + om + 1440 - (ih * 60 + im)
      else oh * 60 + om - (ih * 60 + im) := by
  simp only [calculate_time_difference, hin, hout,
    if_neg (parseHM_ne_2400 hout)]

/-! ### Claim theorems: the interval calculator -/

/-- **C1**: for parsed in/out clock readings, `calculate_time_difference`
is the direct clock-minute difference when out ≥ in, and the difference
after advancing the out-instant by one day when out < in on the clock; a
same-instant pair yields zero, and the result is never negative. -/
theorem elapsed_clock_difference (sIn sOut : String) (ih im oh om : ℕ)
    (hin : parseHM sIn = some (ih, im))
    (hout : parseHM sOut = some (oh, om)) :
    (ih * 60 + im ≤ oh * 60 + om →
      calculate_time_difference sIn sOut = (oh * 60 + om) - (ih * 60 + im)) ∧
    (oh * 60 + om < ih * 60 + im →
      calculate_time_difference sIn sOut =
        (oh * 60 + om) + 1440 - (ih * 60 + im)) ∧
    (ih * 60 + im = oh * 60 + om → calculate_time_difference sIn sOut = 0) ∧
    0 ≤ calculate_time_difference sIn sOut := by
  rw [calculate_time_difference_eq hin hout]
  refine ⟨?_, ?_, ?_, Nat.zero_le _⟩ <;> intro h
  · rw [if_neg (by omega)]
  · rw [if_pos h]
  · rw [if_neg (by omega)]
    omega

/-- Witness for C1 at `("09:00", "17:30")`, `("22:00", "06:00")` and the
same-instant pair `("08:00", "08:00")`. -/
theorem elapsed_clock_difference_witness :
    calculate_time_difference "09:00" "17:30" = 510 ∧
    calculate_time_difference "22:00" "06:00" = 480 ∧
    calculate_time_difference "08:00" "08:00" = 0 := by
  refine ⟨?_, ?_, ?_⟩
  · have h := (elapsed_clock_difference "09:00" "17:30" 9 0 17 30
      (by decide) (by decide)).1 (by norm_num)
    simpa using h
  · have h := (elapsed_clock_difference "22:00" "06:00" 22 0 6 0
      (by decide) (by decide)).2.1 (by norm_num)
    simpa using h
  · have h := (elapsed_clock_difference "08:00" "08:00" 8 0 8 0
      (by decide) (by decide)).2.2.1 (by norm_num)
    simpa using h

/-- **C2**: an out-time of exactly `"24:00"` is midnight of the next
day, so the duration is 1440 minutes minus the in-time's clock offset;
`"24:00"` as an in-time never parses and forces a zero duration for
every out-time. -/
theorem elapsed_sentinel (sIn sOut : String) (ih im : ℕ)
    (hin : parseHM sIn = some (ih, im)) :
    calculate_time_difference sIn "24:00" = 1440 - (ih * 60 + im) ∧
    calculate_time_difference "24:00" sOut = 0 := by
  constructor
  · simp [calculate_time_difference, hin]
  · simp only [calculate_time_difference, parseHM_2400]

/-- Witness for C2: `elapsed("09:00", "24:00")` is 15 hours and
`elapsed("24:00", "09:00")` is zero. -/
theorem elapsed_sentinel_witness :
    calculate_time_difference "09:00" "24:00" = 900 ∧
    calculate_time_difference "24:00" "09:00" = 0 := by
  have h := elapsed_sentinel "09:00" "09:00" 9 0 (by decide)
  exact ⟨by simpa using h.1, h.2⟩

/-- **C4**: `calculate_time_difference` is a total function (the Lean
embedding is a plain `def`, mirroring the catch-all `except` branch),
and any parse failure — in-time unparsable, or out-time other than the
sentinel unparsable — produces a zero duration. -/
theorem elapsed_total_on_parse_failure (sIn sOut : String) :
    (parseHM sIn = none → calculate_time_difference sIn sOut = 0) ∧
    (sOut ≠ "24:00" → parseHM sOut = none →
      calculate_time_difference sIn sOut = 0) := by
  constructor
  · intro h
    simp only [calculate_time_difference, h]
  · intro hne h
    simp only [calculate_time_difference]
    cases hp : parseHM sIn with
    | none => rfl
    | some p =>
        obtain ⟨ih, im⟩ := p
        simp only [if_neg hne, h]

/-- Witness for C4: the sentinel as in-time, an empty in-time, a
minute > 59, an hour > 23, and non-digit text all yield zero. -/
theorem elapsed_total_on_parse_failure_witness :
    calculate_time_difference "24:00" "10:00" = 0 ∧
    calculate_time_difference "" "10:00" = 0 ∧
    calculate_time_difference "10:00" "10:61" = 0 ∧
    calculate_time_difference "10:00" "25:00" = 0 ∧
    calculate_time_difference "ab:cd" "10:00" = 0 := by
  refine ⟨?_, ?_, ?_, ?_, ?_⟩
  · exact (elapsed_total_on_parse_failure "24:00" "10:00").1 (by decide)
  · exact (elapsed_total_on_parse_failure "" "10:00").1 (by decide)
  · exact (elapsed_total_on_parse_failure "10:00" "10:61").2
      (by decide) (by decide)
  · exact (elapsed_total_on_parse_failure "10:00" "25:00").2
      (by decide) (by decide)
  · exact (elapsed_total_on_parse_failure "ab:cd" "10:00").1 (by decide)

/-! ### Claim theorem: the duration formatter -/

/-- **C9**: `format_timedelta` renders `{H}h {M}m` with `H` the floor of
the total seconds over 3600 and `M` the remaining whole minutes; `None`
renders exactly like a zero duration; hours are not clamped at 24. -/
theorem format_timedelta_spec :
    (∀ n : ℕ, format_timedelta (some (n : ℤ)) = format_reference n) ∧
    format_timedelta none = "0h 0m" ∧
    format_timedelta none = format_timedelta (some 0) ∧
    format_timedelta (some ((26 * 3600 + 90 : ℕ) : ℤ)) = "26h 1m" := by
  have key : ∀ n : ℕ, format_timedelta (some (n : ℤ)) = format_reference n := by
    intro n
    simp only [format_timedelta, format_reference]
    have h1 : (n : ℤ).fdiv 3600 = ((n / 3600 : ℕ) : ℤ) := by
      rw [Int.fdiv_eq_ediv _ (by norm_num)]
      exact_mod_cast Int.ofNat_ediv n 3600
    have h2 : ((n : ℤ).fmod 3600).fdiv 60 = ((n % 3600 / 60 : ℕ) : ℤ) := by
      have hm : (n : ℤ).fmod 3600 = ((n % 3600 : ℕ) : ℤ) := by
        rw [Int.fmod_eq_emod _ (by norm_num)]
        exact_mod_cast rfl
      rw [hm, Int.fdiv_eq_ediv _ (by positivity)]
      exact_mod_cast Int.ofNat_ediv (n % 3600) 60
    rw [h1, h2]
    rfl
  refine ⟨key, rfl, rfl, ?_⟩
  rw [key (26 * 3600 + 90)]
  rfl

/-! ### Claim theorems: the normalizer -/

/-- **C3**: `format_time_input` computes exactly the reference
normalization algorithm on every input string. -/
theorem format_time_input_matches_reference (s : String) :
    format_time_input s = normalize_reference s := by
  by_cases hs : s = ""
  · subst hs
    rfl
  · simp only [format_time_input, normalize_reference, if_neg hs]
    rcases h4 : (s.data.filter Char.isDigit).take 4 with
      _ | ⟨d0, _ | ⟨d1, _ | ⟨d2, _ | ⟨d3, rest⟩⟩⟩⟩ <;> rfl

/-- The characters of a constructed string are the constructing list. -/
theorem data_mk (cs : List Char) : (String.mk cs).data = cs := rfl

/-- A string built from a nonempty character list is nonempty. -/
theorem mk_cons_ne_empty (c : Char) (cs : List Char) :
    String.mk (c :: cs) ≠ "" := by
  intro h
  have h2 : c :: cs = [] := congrArg String.data h
  exact absurd h2 (by simp)

/-- **C10**: `format_time_input` is idempotent on every input string —
each of its possible output shapes normalizes back to itself. -/
theorem format_time_input_idempotent (s : String) :
    format_time_input (format_time_input s) = format_time_input s := by
  by_cases hs : s = ""
  · subst hs
    rfl
  · have hdig : ∀ c ∈ (s.data.filter Char.isDigit).take 4, c.isDigit = true := by
      intro c hc
      exact (List.mem_filter.mp (List.take_subset _ _ hc)).2
    have hlen : ((s.data.filter Char.isDigit).take 4).length ≤ 4 := by
      simp [List.length_take]
    rcases h4 : (s.data.filter Char.isDigit).take 4 with
      _ | ⟨d0, _ | ⟨d1, _ | ⟨d2, _ | ⟨d3, _ | ⟨d4, rest⟩⟩⟩⟩⟩
    · have hres : format_time_input s = "" := by
        simp only [format_time_input, if_neg hs, h4]
      rw [hres]
      rfl
    · have h0 : d0.isDigit = true := hdig d0 (by rw [h4]; simp)
      have hres : format_time_input s = String.mk [d0] := by
        simp only [format_time_input, if_neg hs, h4]
      rw [hres]
      simp only [format_time_input, if_neg (mk_cons_ne_empty _ _), data_mk,
        List.filter_cons, h0, if_pos]
      rfl
    · have h0 : d0.isDigit = true := hdig d0 (by rw [h4]; simp)
      have h1 : d1.isDigit = true := hdig d1 (by rw [h4]; simp)
      have hres : format_time_input s = String.mk [d0, d1] := by
        simp only [format_time_input, if_neg hs, h4]
      rw [hres]
      simp only [format_time_input, if_neg (mk_cons_ne_empty _ _), data_mk,
        List.filter_cons, h0, h1, if_pos]
      rfl
    · have h0 : d0.isDigit = true := hdig d0 (by rw [h4]; simp)
      have h1 : d1.isDigit = true := hdig d1 (by rw [h4]; simp)
      have h2 : d2.isDigit = true := hdig d2 (by rw [h4]; simp)
      have hcolon : Char.isDigit ':' = false := by decide
      have hzero : Char.isDigit '0' = true := by decide
      by_cases hv : 23 < charVal d0 * 10 + charVal d1
      · have hres : format_time_input s = String.mk ['0', d0, ':', d1, d2] := by
          simp only [format_time_input, if_neg hs, h4, if_pos hv]
        rw [hres]
        simp only [format_time_input, if_neg (mk_cons_ne_empty _ _), data_mk,
          List.filter_cons, h0, h1, h2, hcolon, hzero, if_pos, if_neg]
        rfl
      · have hres : format_time_input s = String.mk [d0, d1, ':', d2] := by
          simp only [format_time_input, if_neg hs, h4, if_neg hv]
        rw [hres]
        simp only [format_time_input, if_neg (mk_cons_ne_empty _ _), data_mk,
          List.filter_cons, h0, h1, h2, hcolon, if_pos, if_neg]
        simp only [List.take, if_neg hv]
    · have h0 : d0.isDigit = true := hdig d0 (by rw [h4]; simp)
      have h1 : d1.isDigit = true := hdig d1 (by rw [h4]; simp)
      have h2 : d2.isDigit = true := hdig d2 (by rw [h4]; simp)
      have h3 : d3.isDigit = true := hdig d3 (by rw [h4]; simp)
      have hcolon : Char.isDigit ':' = false := by decide
      have hres : format_time_input s = String.mk [d0, d1, ':', d2, d3] := by
        simp only [format_time_input, if_neg hs, h4]
      rw [hres]
      simp only [format_time_input, if_neg (mk_cons_ne_empty _ _), data_mk,
        List.filter_cons, h0, h1, h2, h3, hcolon, if_pos, if_neg]
      rfl
    · rw [h4] at hlen
      simp at hlen

/-! ### Claim theorems: per-day validation and aggregation -/

/-- A fully typed field is nonempty. -/
theorem length_five_ne_empty {s : String} (h : s.length = 5) : s ≠ "" := by
  intro he
  rw [he] at h
  exact absurd h (by decide)

/-- The in-time half of the validation, as a proposition. -/
theorem in_err_bool (inT : String) :
    (if inT ≠ "" ∧ inT.length = 5 then
        decide (inT = "24:00") || (parseHM inT).isNone
      else false) = true ↔
      (inT.length = 5 ∧ (inT = "24:00" ∨ parseHM inT = none)) := by
  by_cases h5 : inT.length = 5
  · rw [if_pos ⟨length_five_ne_empty h5, h5⟩]
    simp [h5, Option.isNone_iff_eq_none]
  · rw [if_neg (fun hc => h5 hc.2)]
    simp [h5]

/-- The out-time half of the validation, as a proposition. -/
theorem out_err_bool (outT : String) :
    (if outT ≠ "" ∧ outT.length = 5 then
        (if outT ≠ "24:00" then (parseHM outT).isNone else false)
      else false) = true ↔
      (outT.length = 5 ∧ outT ≠ "24:00" ∧ parseHM outT = none) := by
  by_cases h5 : outT.length = 5
  · rw [if_pos ⟨length_five_ne_empty h5, h5⟩]
    by_cases hs : outT = "24:00"
    · rw [if_neg (by simpa using hs)]
      simp [hs]
    · rw [if_pos hs]
      simp [h5, hs, Option.isNone_iff_eq_none]
  · rw [if_neg (fun hc => h5 hc.2)]
    simp [h5]

/-- `error_in_row` holds exactly when the in-time is fully typed and
invalid (or the sentinel), or — failing that — the out-time is fully
typed, not the sentinel, and invalid. -/
theorem error_in_row_iff (inT outT : String) :
    error_in_row inT outT = true ↔
      ((inT.length = 5 ∧ (inT = "24:00" ∨ parseHM inT = none)) ∨
        (¬(inT.length = 5 ∧ (inT = "24:00" ∨ parseHM inT = none)) ∧
          outT.length = 5 ∧ outT ≠ "24:00" ∧ parseHM outT = none)) := by
  unfold error_in_row
  by_cases hE : (if inT ≠ "" ∧ inT.length = 5 then
      decide (inT = "24:00") || (parseHM inT).isNone
    else false) = true
  · rw [if_pos hE]
    have hA := (in_err_bool inT).mp hE
    simp [hA]
  · rw [if_neg hE]
    have hA : ¬(inT.length = 5 ∧ (inT = "24:00" ∨ parseHM inT = none)) :=
      fun h => hE ((in_err_bool inT).mpr h)
    rw [out_err_bool outT]
    simp [hA]

/-- A record whose in-time parses is never put in error state by an
empty out-time. -/
theorem error_in_row_false_valid_in (inT : String) {h m : ℕ}
    (hp : parseHM inT = some (h, m)) :
    error_in_row inT "" = false := by
  cases hbool : error_in_row inT "" with
  | false => rfl
  | true =>
      exfalso
      rcases (error_in_row_iff inT "").mp hbool with hA | hB
      · rcases hA.2 with h24 | hnone
        · exact parseHM_ne_2400 hp h24
        · rw [hp] at hnone
          exact absurd hnone (by simp)
      · exact absurd hB.2.1 (by decide)

/-- **C5**: a day record is in error state exactly under the condition
of the claim, and an error-state day contributes zero minutes to the
week total while column 5 shows the error indicator instead of a
formatted duration. -/
theorem error_state_spec (inT outT nowS : String) :
    (error_in_row inT outT = true ↔
      ((inT.length = 5 ∧ (inT = "24:00" ∨ parseHM inT = none)) ∨
        (¬(inT.length = 5 ∧ (inT = "24:00" ∨ parseHM inT = none)) ∧
          outT.length = 5 ∧ outT ≠ "24:00" ∧ parseHM outT = none))) ∧
    (error_in_row inT outT = true →
      dayContribution nowS ⟨inT, outT⟩ = 0 ∧
      row_display inT outT nowS = RowDisplay.errorIndicator) := by
  refine ⟨error_in_row_iff inT outT, fun herr => ⟨?_, ?_⟩⟩
  · have hf : ¬ error_in_row inT outT = false := by simp [herr]
    unfold dayContribution daily_duration
    simp only
    rw [if_neg (fun hc => hf hc.1), if_neg (fun hc => hf hc.1)]
  · unfold row_display
    rw [if_pos herr]

/-- Witness for C5 at the fully typed, unparsable in-time `"99:99"`. -/
theorem error_state_spec_witness :
    error_in_row "99:99" "" = true ∧
    dayContribution "12:00" ⟨"99:99", ""⟩ = 0 ∧
    row_display "99:99" "" "12:00" = RowDisplay.errorIndicator := by
  have h := (error_state_spec "99:99" "" "12:00").2 (by decide)
  exact ⟨by decide, h.1, h.2⟩

/-- **C6**: for a fully typed, semantically valid in-time and an empty
out-time, the displayed duration is the interval to the current
wall-clock time with the " (so far)" annotation, and it wraps to the
next day when the current time-of-day is clock-earlier than the
in-time (hence it is never negative). -/
theorem so_far_duration (inT : String) (h m nh nm : ℕ)
    (hlen : inT.length = 5) (hp : parseHM inT = some (h, m))
    (hh : nh < 24) (hm : nm < 60) :
    daily_duration inT "" (strftime_HM nh nm) =
      (calculate_time_difference inT (strftime_HM nh nm), " (so far)") ∧
    calculate_time_difference inT (strftime_HM nh nm) =
      (if h * 60 + m ≤ nh * 60 + nm then nh * 60 + nm - (h * 60 + m)
        else nh * 60 + nm + 1440 - (h * 60 + m)) := by
  have hnow := parseHM_strftime nh hh nm hm
  have herr := error_in_row_false_valid_in inT hp
  constructor
  · unfold daily_duration
    have hne5 : ("" : String).length ≠ 5 := by decide
    rw [if_neg (fun hc => hne5 hc.2.2), if_pos ⟨herr, hlen, rfl⟩]
  · rw [calculate_time_difference_eq hp hnow]
    rcases le_or_lt (h * 60 + m) (nh * 60 + nm) with hle | hlt
    · rw [if_neg (not_lt.mpr hle), if_pos hle]
    · rw [if_pos hlt, if_neg (not_le.mpr hlt)]

/-- Witness for C6: clocked in at 23:30, current time 01:15 the next
morning; the so-far duration wraps to 1h 45m. -/
theorem so_far_duration_witness :
    daily_duration "23:30" "" (strftime_HM 1 15) = (105, " (so far)") := by
  have h := so_far_duration "23:30" 23 30 1 15 (by decide) (by decide)
    (by decide) (by decide)
  rw [h.1, h.2]
  norm_num

/-- Accumulator form of the day loop's running total. -/
theorem foldl_add_acc (f : DayRecord → ℕ) (l : List DayRecord) (a : ℕ) :
    l.foldl (fun acc r => acc + f r) a = a + (l.map f).sum := by
  induction l generalizing a with
  | nil => simp
  | cons x xs ih =>
      simp only [List.foldl_cons, List.map_cons, List.sum_cons, ih]
      omega

/-- The running total of the loop is the sum of the per-day durations. -/
theorem total_duration_eq_sum (nowS : String) (week : List DayRecord) :
    total_duration nowS week = (week.map (dayContribution nowS)).sum := by
  simpa using foldl_add_acc (dayContribution nowS) week 0

/-- Replacing one record trades its contribution for the new record's. -/
theorem sum_map_set (f : DayRecord → ℕ) (l : List DayRecord) (i : ℕ)
    (hi : i < l.length) (v : DayRecord) :
    ((l.set i v).map f).sum + f (l.getD i ⟨"", ""⟩) =
      (l.map f).sum + f v := by
  induction l generalizing i with
  | nil => exact absurd hi (by simp)
  | cons x xs ih =>
      cases i with
      | zero =>
          simp only [List.set_cons_zero, List.map_cons, List.sum_cons,
            List.getD_cons_zero]
          omega
      | succ j =>
          have hj : j < xs.length := by simpa using hi
          simp only [List.set_cons_succ, List.map_cons, List.sum_cons,
            List.getD_cons_succ]
          have := ih j hj
          omega

/-- A cleared record contributes no minutes, whatever the clock says. -/
theorem dayContribution_blank (nowS : String) :
    dayContribution nowS ⟨"", ""⟩ = 0 := by
  have hne5 : ("" : String).length ≠ 5 := by decide
  unfold dayContribution daily_duration
  simp only
  rw [if_neg (fun hc => hne5 hc.2.1), if_neg (fun hc => hne5 hc.2.1)]

/-- **C7**: the week total is the arithmetic sum of the seven per-day
durations computed from the current field texts; clearing one day blanks
exactly that day's record, leaves every other record unchanged, and the
recomputed total is the old total minus the cleared day's prior
contribution. -/
theorem week_total_additivity (week : List DayRecord) (nowS : String)
    (i : ℕ) (hlen : week.length = 7) (hi : i < week.length) :
    total_duration nowS week = (week.map (dayContribution nowS)).sum ∧
    (∀ j, j ≠ i → (clear_day week i).getD j ⟨"", ""⟩ = week.getD j ⟨"", ""⟩) ∧
    (clear_day week i).getD i ⟨"", ""⟩ = ⟨"", ""⟩ ∧
    total_duration nowS (clear_day week i) +
      dayContribution nowS (week.getD i ⟨"", ""⟩) = total_duration nowS week := by
  refine ⟨total_duration_eq_sum nowS week, ?_, ?_, ?_⟩
  · intro j hj
    unfold clear_day
    simp [List.getD_eq_getElem?_getD, List.getElem?_set_ne (Ne.symm hj)]
  · unfold clear_day
    simp [List.getD_eq_getElem?_getD, List.getElem?_set_self hi]
  · unfold clear_day
    rw [total_duration_eq_sum, total_duration_eq_sum,
      sum_map_set (dayContribution nowS) week i hi ⟨"", ""⟩,
      dayContribution_blank, Nat.add_zero]

/-- Witness for C7 on a concrete week (Monday 09:00–17:00, Tuesday
10:00–12:30, rest empty): the total is 630 minutes and clearing Monday
removes exactly Monday's 480 minutes. -/
theorem week_total_additivity_witness :
    total_duration "12:00"
        [⟨"09:00", "17:00"⟩, ⟨"10:00", "12:30"⟩, ⟨"", ""⟩, ⟨"", ""⟩,
          ⟨"", ""⟩, ⟨"", ""⟩, ⟨"", ""⟩] = 630 ∧
    total_duration "12:00"
        (clear_day [⟨"09:00", "17:00"⟩, ⟨"10:00", "12:30"⟩, ⟨"", ""⟩,
          ⟨"", ""⟩, ⟨"", ""⟩, ⟨"", ""⟩, ⟨"", ""⟩] 0) = 150 ∧
    total_duration "12:00"
        (clear_day [⟨"09:00", "17:00"⟩, ⟨"10:00", "12:30"⟩, ⟨"", ""⟩,
          ⟨"", ""⟩, ⟨"", ""⟩, ⟨"", ""⟩, ⟨"", ""⟩] 0) +
      dayContribution "12:00"
        ([⟨"09:00", "17:00"⟩, ⟨"10:00", "12:30"⟩, ⟨"", ""⟩, ⟨"", ""⟩,
          ⟨"", ""⟩, ⟨"", ""⟩, ⟨"", ""⟩].getD 0 ⟨"", ""⟩) =
      total_duration "12:00"
        [⟨"09:00", "17:00"⟩, ⟨"10:00", "12:30"⟩, ⟨"", ""⟩, ⟨"", ""⟩,
          ⟨"", ""⟩, ⟨"", ""⟩, ⟨"", ""⟩] := by
  refine ⟨by decide, by decide, ?_⟩
  exact (week_total_additivity
    [⟨"09:00", "17:00"⟩, ⟨"10:00", "12:30"⟩, ⟨"", ""⟩, ⟨"", ""⟩,
      ⟨"", ""⟩, ⟨"", ""⟩, ⟨"", ""⟩] "12:00" 0 (by decide) (by decide)).2.2.2

/-- **C8, counterexample**: the claim says the "End Now" action is never
offered when the in-time fails to parse as a valid time, but the code
offers it for the incomplete, unparsable in-time `"1"` with an empty
out-time. -/
theorem end_now_claim_counterexample :
    end_now_offered "1" "" = true ∧ parseHM "1" = none := by decide

/-- **C8, amended**: the "End Now" action is offered iff the out-time is
empty, the in-time text is nonempty, and the in-time is not a fully
typed (5-character) text that is the sentinel `"24:00"` or fails strict
parsing — i.e. incomplete in-times also get the button. -/
theorem end_now_offered_iff (inT outT : String) :
    end_now_offered inT outT = true ↔
      (outT = "" ∧ inT ≠ "" ∧
        ¬(inT.length = 5 ∧ (inT = "24:00" ∨ parseHM inT = none))) := by
  unfold end_now_offered
  simp only [Bool.and_eq_true, Bool.not_eq_true', decide_eq_true_eq]
  constructor
  · rintro ⟨⟨herr, hne⟩, hout⟩
    subst hout
    refine ⟨rfl, hne, fun hA => ?_⟩
    have htrue := (error_in_row_iff inT "").mpr (Or.inl hA)
    rw [htrue] at herr
    exact absurd herr (by simp)
  · rintro ⟨hout, hne, hA⟩
    subst hout
    refine ⟨⟨?_, hne⟩, rfl⟩
    cases hbool : error_in_row inT "" with
    | false => rfl
    | true =>
        rcases (error_in_row_iff inT "").mp hbool with h | h
        · exact absurd h hA
        · exact absurd h.2.1 (by decide)
